import Mathlib

/-!
Verification of the A2A (agent-to-agent) subsystem of the synapse repository.

The development shallowly embeds the pure cores of:
* `src/backend/src/services/a2a/MessageQueue.js` (durable Redis-stream queue:
  message enrichment, ttl expiry check, retry with dead-lettering),
* `src/unnamed/part_013` (`SimpleMessageQueue`, the lightweight pub/sub queue),
* `src/backend/src/services/a2a/agents/BaseAgent.js` (`canHandleTask`, `updateMetrics`),
* `src/backend/src/services/a2a/AgentOrchestrator.js` (workflow state machine,
  task assignment, error-triggered reassignment),
* `src/backend/src/services/a2a/A2AService.js` (session-start agent selection).

Timestamps are modelled in milliseconds as integers (JS `Date.now()`), ttl in
seconds, and the JS real-number division `(now - ts) / 1000` is modelled over ℚ
so the expiry comparison is exact.  JS falsy-default expressions (`x || d`) are
modelled explicitly on `Option` values, with `0` and `""` treated as falsy.
JS strings are Lean `String`s; `String.prototype.includes` is substring search.
-/

/-- Leading-segment test: `leadsChars needle hay` is true when `needle` is an
initial run of `hay`. -/
def leadsChars : List Char → List Char → Bool
  | [], _ => true
  | _ :: _, [] => false
  | a :: as, b :: bs => a == b && leadsChars as bs

/-- Occurrence test: `containsChars needle hay` is true when `needle` occurs
contiguously inside `hay`. -/
def containsChars : List Char → List Char → Bool
  | needle, [] => needle.isEmpty
  | needle, c :: rest => leadsChars needle (c :: rest) || containsChars needle rest

/-- JS `hay.includes(needle)`: substring containment test. -/
def jsIncludes (hay needle : String) : Bool :=
  containsChars needle.data hay.data

/-- JS `s.toLowerCase()`: character-wise lower-casing. -/
def jsToLower (s : String) : String :=
  String.mk (s.data.map Char.toLower)

/-- JS `v || d` for an optional number field: `undefined` and `0` are falsy. -/
def jsOrNum (v : Option Int) (d : Int) : Int :=
  match v with
  | none => d
  | some x => if x = 0 then d else x

/-- JS `v || d` for an optional string field: `undefined` and `""` are falsy. -/
def jsOrStr (v : Option String) (d : String) : String :=
  match v with
  | none => d
  | some s => if s = "" then d else s

namespace MessageQueue

/-- A message as enriched by the durable `MessageQueue.sendMessage`
(`MessageQueue.js`, lines 70-84).  `timestamp` is in milliseconds, `ttl` in
seconds; `payload` is kept opaque as its JSON text. -/
structure A2AMessage where
  id : String
  timestamp : Int
  type : String
  sessionId : String
  fromAgent : String
  toAgent : List String
  payload : String
  correlationId : String
  priority : Int
  ttl : Int
  status : String
  retryCount : Nat
  maxRetries : Nat
deriving DecidableEq, Repr

/-- The caller-supplied message object passed to `sendMessage`; optional
fields may be absent (JS `undefined`). -/
structure OutboundMessage where
  type : String
  sessionId : String
  fromAgent : String
  toAgent : List String
  payload : String
  correlationId : Option String
  priority : Option Int
  ttl : Option Int
deriving DecidableEq, Repr

/-- The `enrichedMessage` object built by `MessageQueue.sendMessage`
(`MessageQueue.js` lines 70-84): defaults `correlationId` to the generated id,
`priority` to 5 and `ttl` to 300 via JS `||`, and stamps retry bookkeeping. -/
def enrichedMessage (messageId : String) (now : Int) (message : OutboundMessage) :
    A2AMessage where
  id := messageId
  timestamp := now
  type := message.type
  sessionId := message.sessionId
  fromAgent := message.fromAgent
  toAgent := message.toAgent
  payload := message.payload
  correlationId := jsOrStr message.correlationId messageId
  priority := jsOrNum message.priority 5
  ttl := jsOrNum message.ttl 300
  status := "sent"
  retryCount := 0
  maxRetries := 3

/-- Message age in seconds, `(Date.now() - new Date(messageData.timestamp)) / 1000`
(`MessageQueue.js` line 178), computed exactly over ℚ. -/
def messageAgeSec (now timestamp : Int) : ℚ :=
  ((now - timestamp : Int) : ℚ) / 1000

/-- Outcome of `retryMessage` (`MessageQueue.js` lines 222-259): either the
incremented copy is re-published to the same stream, or (retries exhausted)
the incremented copy is written to the dead-letter stream with a `failedAt`
timestamp.  In both branches the original delivery is acknowledged. -/
inductive RetryOutcome
  | republish (messageData : A2AMessage)
  | deadLetter (messageData : A2AMessage) (failedAt : Int)
deriving DecidableEq, Repr

/-- `retryMessage` (`MessageQueue.js` lines 222-259).  JS sets
`messageData.retryCount = (messageData.retryCount || 0) + 1`; `retryCount` is
always a number here and `0 || 0 = 0`, so this is plain increment. -/
def retryMessage (now : Int) (messageData : A2AMessage) : RetryOutcome :=
  let retried := { messageData with retryCount := messageData.retryCount + 1 }
  if retried.retryCount < messageData.maxRetries then
    RetryOutcome.republish retried
  else
    RetryOutcome.deadLetter retried now

/-- Observable effect of delivering one stream entry in `consumeMessages`
(`MessageQueue.js` lines 174-201). -/
structure DeliverResult where
  handlerInvoked : Bool
  acked : Bool
  republished : Option A2AMessage
  deadLettered : Option (A2AMessage × Int)
deriving DecidableEq, Repr

/-- One delivery attempt in `consumeMessages` (`MessageQueue.js` lines 174-201):
an expired message is acknowledged and skipped without invoking the handler;
otherwise the handler runs, and on failure `retryMessage` applies. -/
def consumeDeliver (now : Int) (messageData : A2AMessage) (handlerSucceeds : Bool) :
    DeliverResult :=
  if messageAgeSec now messageData.timestamp > (messageData.ttl : ℚ) then
    { handlerInvoked := false, acked := true, republished := none, deadLettered := none }
  else if handlerSucceeds then
    { handlerInvoked := true, acked := true, republished := none, deadLettered := none }
  else
    match retryMessage now messageData with
    | RetryOutcome.republish m =>
        { handlerInvoked := true, acked := true, republished := some m, deadLettered := none }
    | RetryOutcome.deadLetter m t =>
        { handlerInvoked := true, acked := true, republished := none, deadLettered := some (m, t) }

/-- State of one (session, recipient) stream together with its session's
dead-letter record and the count of acknowledged deliveries. -/
structure QueueState where
  live : List A2AMessage
  dlq : List (A2AMessage × Int)
  acks : Nat
deriving DecidableEq, Repr

/-- One delivery on which the handler fails: the head of the live stream is
processed by `retryMessage`; a republished copy goes to the back of the same
stream, an exhausted one is appended to the dead-letter record; either way the
original delivery is acknowledged. -/
def failStep (now : Int) (s : QueueState) : QueueState :=
  match s.live with
  | [] => s
  | m :: rest =>
    match retryMessage now m with
    | RetryOutcome.republish m' => ⟨rest ++ [m'], s.dlq, s.acks + 1⟩
    | RetryOutcome.deadLetter m' t => ⟨rest, s.dlq ++ [(m', t)], s.acks + 1⟩

end MessageQueue

namespace SimpleMessageQueue

/-- A message as enriched by `SimpleMessageQueue.sendMessage`
(`src/unnamed/part_013` lines 70-82): same fields as the durable queue but no
retry bookkeeping. -/
structure LightMessage where
  id : String
  timestamp : Int
  type : String
  sessionId : String
  fromAgent : String
  toAgent : List String
  payload : String
  correlationId : String
  priority : Int
  ttl : Int
  status : String
deriving DecidableEq, Repr

/-- The `enrichedMessage` object built by `SimpleMessageQueue.sendMessage`
(`src/unnamed/part_013` lines 70-82). -/
def enrichedMessage (messageId : String) (now : Int)
    (message : MessageQueue.OutboundMessage) : LightMessage where
  id := messageId
  timestamp := now
  type := message.type
  sessionId := message.sessionId
  fromAgent := message.fromAgent
  toAgent := message.toAgent
  payload := message.payload
  correlationId := jsOrStr message.correlationId messageId
  priority := jsOrNum message.priority 5
  ttl := jsOrNum message.ttl 300
  status := "sent"

/-- One delivery in `SimpleMessageQueue.subscribeToMessages`
(`src/unnamed/part_013` lines 134-154): returns whether the handler is invoked.
An expired message is simply dropped (`return`); there is no acknowledgment or
retry machinery in this mode. -/
def lightDeliver (now : Int) (messageData : LightMessage) : Bool :=
  if MessageQueue.messageAgeSec now messageData.timestamp > (messageData.ttl : ℚ) then
    false
  else
    true

end SimpleMessageQueue

/-- Sample fresh message used by the dead-letter witness. -/
def sampleFreshMessage : MessageQueue.A2AMessage where
  id := "m3"
  timestamp := 0
  type := "task_assignment"
  sessionId := "s1"
  fromAgent := "orchestrator"
  toAgent := ["architectrix"]
  payload := "\x7b\x7d"
  correlationId := "m3"
  priority := 5
  ttl := 300
  status := "sent"
  retryCount := 0
  maxRetries := 3


namespace BaseAgent

/-- Agent metrics as initialized in the `BaseAgent` constructor
(`BaseAgent.js` lines 16-21).  JS floating-point arithmetic on the average and
the rate is modelled exactly over ℚ. -/
structure Metrics where
  tasksCompleted : Nat
  averageResponseTime : ℚ
  errorRate : ℚ
  collaborations : Nat
deriving DecidableEq, Repr

/-- Initial metrics: all zero. -/
def initMetrics : Metrics := ⟨0, 0, 0, 0⟩

/-- `updateMetrics(responseTime, success)` (`BaseAgent.js` lines 367-382):
on success, increments `tasksCompleted` and updates the running average; then
recomputes `errorRate` as `(errorCount / totalTasks) * 100` where
`totalTasks = tasksCompleted + (success ? 0 : 1)` and
`errorCount = totalTasks - tasksCompleted`. -/
def updateMetrics (metrics : Metrics) (responseTime : ℚ) (success : Bool) : Metrics :=
  let m1 :=
    if success then
      let completed := metrics.tasksCompleted + 1
      { metrics with
          tasksCompleted := completed
          averageResponseTime :=
            (metrics.averageResponseTime * ((completed : ℚ) - 1) + responseTime) /
              (completed : ℚ) }
    else metrics
  let totalTasks : ℚ := (m1.tasksCompleted : ℚ) + (if success then 0 else 1)
  let errorCount : ℚ := totalTasks - (m1.tasksCompleted : ℚ)
  { m1 with errorRate := errorCount / totalTasks * 100 }

/-- One task outcome fed to `updateMetrics`: `completeTask` calls
`updateMetrics(responseTime, true)` (`BaseAgent.js` line 318) and `reportError`
calls `updateMetrics(0, false)` (line 348). -/
inductive TaskOutcome
  | success (responseTime : ℚ)
  | failure
deriving DecidableEq, Repr

/-- Apply one outcome to the metrics. -/
def applyOutcome (m : Metrics) : TaskOutcome → Metrics
  | TaskOutcome.success rt => updateMetrics m rt true
  | TaskOutcome.failure => updateMetrics m 0 false

/-- Metrics after a sequence of task outcomes, starting from the constructor
state. -/
def runOutcomes (outcomes : List TaskOutcome) : Metrics :=
  outcomes.foldl applyOutcome initMetrics

/-- Number of successes in an outcome sequence. -/
def successCount (outcomes : List TaskOutcome) : Nat :=
  outcomes.countP (fun o => match o with | TaskOutcome.success _ => true | _ => false)

/-- Number of failures in an outcome sequence. -/
def failureCount (outcomes : List TaskOutcome) : Nat :=
  outcomes.countP (fun o => match o with | TaskOutcome.failure => true | _ => false)

/-- Modelled from the spec: `errorRate = errors / (completed + errors)`, the
cumulative error fraction the spec describes. -/
def specErrorRate (outcomes : List TaskOutcome) : ℚ :=
  (failureCount outcomes : ℚ) / ((successCount outcomes : ℚ) + (failureCount outcomes : ℚ))

/-- Category of a task type: `task.type.split('_')[0]` (`BaseAgent.js` line
165), the characters before the first underscore. -/
def taskTypeCategory (taskType : String) : String :=
  String.mk (taskType.data.takeWhile (fun c => c != '_'))

/-- `canHandleTask` (`BaseAgent.js` lines 164-170):
`capabilities.some(cap => cap.includes(taskType) || task.type.includes(specialization))`
where `taskType` is the category before the first underscore. -/
def canHandleTask (capabilities : List String) (specialization taskType : String) : Bool :=
  capabilities.any
    (fun cap => jsIncludes cap (taskTypeCategory taskType) ||
      jsIncludes taskType specialization)

end BaseAgent


namespace AgentOrchestrator

/-- Capability record of one agent in the orchestrator's registry
(`AgentOrchestrator.js` lines 22-107); only the fields the handlers read. -/
structure AgentCapability where
  specialization : String
  capabilities : List String
deriving DecidableEq, Repr

/-- The orchestrator's `agentCapabilities` map: association list in insertion
order (JS `Map` iterates in insertion order). -/
abbrev CapabilityRegistry := List (String × AgentCapability)

/-- Registry contents installed by the `AgentOrchestrator` constructor
(`AgentOrchestrator.js` lines 22-107): six agents with pairwise distinct
specializations. -/
def initialCapabilities : CapabilityRegistry :=
  [("architectrix", ⟨"system_architecture",
      ["system_design", "architecture_planning", "technology_selection",
        "scalability_analysis", "performance_optimization"]⟩),
   ("code_conjurer", ⟨"code_generation",
      ["code_writing", "code_review", "refactoring", "debugging", "testing"]⟩),
   ("api_architect", ⟨"api_design",
      ["api_design", "endpoint_planning", "documentation", "integration_patterns",
        "security_design"]⟩),
   ("frontend_developer", ⟨"frontend_development",
      ["ui_development", "component_design", "styling", "user_experience",
        "responsive_design"]⟩),
   ("backend_developer", ⟨"backend_development",
      ["server_logic", "database_design", "performance_optimization",
        "security_implementation", "deployment"]⟩),
   ("technical_writer", ⟨"documentation",
      ["documentation", "technical_writing", "user_guides", "api_documentation",
        "tutorials"]⟩)]

/-- `this.agentCapabilities.get(agentId)`. -/
def getAgentCapability : CapabilityRegistry → String → Option AgentCapability
  | [], _ => none
  | (agentId, capability) :: rest, a =>
    if a = agentId then some capability else getAgentCapability rest a

/-- `findReplacementAgent(specialization, excludeAgent)` (`AgentOrchestrator.js`
lines 535-542): first registry entry, in insertion order, with the same
specialization and a different agent id. -/
def findReplacementAgent : CapabilityRegistry → String → String → Option String
  | [], _, _ => none
  | (agentId, capabilities) :: rest, specialization, excludeAgent =>
    if agentId ≠ excludeAgent ∧ capabilities.specialization = specialization then
      some agentId
    else findReplacementAgent rest specialization excludeAgent

/-- A task owned by the orchestrator's workflow.  Task ids are modelled as
naturals drawn from the workflow's fresh-id counter (JS uses uuidv4). -/
structure OrchTask where
  id : Nat
  type : String
  assignedAgent : String
  status : String
  priority : Int
  progress : Option Int
  previousAgent : Option String
  result : Option String
deriving DecidableEq, Repr

/-- Projection of one `messageQueue.sendMessage` call made by the orchestrator:
type, sender, recipient, task correlation and priority. -/
structure SentMessage where
  type : String
  fromAgent : String
  toAgent : String
  taskId : Option Nat
  priority : Int
deriving DecidableEq, Repr

/-- Per-session workflow state (`AgentOrchestrator.startSession`,
`AgentOrchestrator.js` lines 114-134), restricted to the fields the handlers
read or write; `outbox` records the messages published so far and
`nextTaskId` is the fresh task-id counter. -/
structure Workflow where
  currentPhase : String
  activeTasks : List OrchTask
  completedTasks : List OrchTask
  activeAgents : List String
  requirements : String
  architecture : Option String
  outbox : List SentMessage
  nextTaskId : Nat
deriving DecidableEq, Repr

/-- JS `Set.add`: append if not already present (insertion order kept). -/
def addActiveAgent (agents : List String) (a : String) : List String :=
  if a ∈ agents then agents else agents ++ [a]

/-- `assignTaskToAgent(sessionId, task)` (`AgentOrchestrator.js` lines
487-506): pushes the task onto `activeTasks`, adds its agent to
`activeAgents`, and publishes one `task_assignment` message at the task's
priority, correlated to the task id. -/
def assignTaskToAgent (w : Workflow) (task : OrchTask) : Workflow :=
  { w with
      activeTasks := w.activeTasks ++ [task]
      activeAgents := addActiveAgent w.activeAgents task.assignedAgent
      outbox := w.outbox ++
        [⟨"task_assignment", "orchestrator", task.assignedAgent, some task.id,
          task.priority⟩] }

/-- The mutated task object produced by `reassignTask` on a critical error. -/
def reassignedCopy (task : OrchTask) (replacementAgent failedAgent : String) : OrchTask :=
  { task with
      assignedAgent := replacementAgent
      status := "reassigned"
      previousAgent := some failedAgent }

/-- In-place mutation of a task object as seen through `activeTasks`: every
entry aliasing the task id becomes the mutated object (JS mutates the found
object, and aliases are the same object). -/
def substTask (taskId : Nat) (task' : OrchTask) (tasks : List OrchTask) : List OrchTask :=
  tasks.map (fun t => if t.id == taskId then task' else t)

/-- `determineRequiredAgents(requirements, architecture)`
(`AgentOrchestrator.js` lines 432-450): keyword matching over the requirements
text; `architecture` is accepted but never read; `code_conjurer` is always
included. -/
def determineRequiredAgents (requirements : String) (architecture : String) :
    List String :=
  (if jsIncludes requirements "frontend" || jsIncludes requirements "ui" then
      ["frontend_developer"] else []) ++
  (if jsIncludes requirements "backend" || jsIncludes requirements "api" then
      ["backend_developer"] else []) ++
  (if jsIncludes requirements "api" || jsIncludes requirements "endpoints" then
      ["api_architect"] else []) ++
  (if jsIncludes requirements "documentation" || jsIncludes requirements "docs" then
      ["technical_writer"] else []) ++
  ["code_conjurer"]

/-- One implementation task as built in `createImplementationTasks`
(`AgentOrchestrator.js` lines 455-482). -/
def mkImplementationTask (taskId : Nat) (agentId : String)
    (capability : AgentCapability) : OrchTask where
  id := taskId
  type := capability.specialization ++ "_implementation"
  assignedAgent := agentId
  status := "pending"
  priority := 7
  progress := none
  previousAgent := none
  result := none

/-- `createImplementationTasks` (`AgentOrchestrator.js` lines 455-482): one
task per needed agent, typed by that agent's specialization.  A registry miss
makes the JS loop throw (`capabilities.specialization` on `undefined`), which
`handleAgentMessage` catches: modelled as `none`, discarding the tasks. -/
def createImplementationTasks (reg : CapabilityRegistry) (nextId : Nat) :
    List String → Option (List OrchTask)
  | [] => some []
  | agentId :: rest =>
    match getAgentCapability reg agentId with
    | none => none
    | some capability =>
      (createImplementationTasks reg (nextId + 1) rest).map
        (fun tasks => mkImplementationTask nextId agentId capability :: tasks)

/-- `initiateImplementationPlanning` (`AgentOrchestrator.js` lines 410-427):
derives the needed agents from the stored analysis result, creates one
implementation task per agent, assigns each, then advances the phase to
`implementation`.  If task creation throws (registry miss) the phase is left
as set by the caller. -/
def initiateImplementationPlanning (reg : CapabilityRegistry) (w : Workflow)
    (requirements architecture : String) : Workflow :=
  let neededAgents := determineRequiredAgents requirements architecture
  match createImplementationTasks reg w.nextTaskId neededAgents with
  | none => w
  | some tasks =>
    let w1 := tasks.foldl assignTaskToAgent
      { w with nextTaskId := w.nextTaskId + neededAgents.length }
    { w1 with currentPhase := "implementation" }

/-- `handleTaskCompletion` (`AgentOrchestrator.js` lines 298-326): moves the
first matching active task (completed, with result) to `completedTasks`; if it
was the `requirements_analysis` task, stores requirements/architecture,
advances the phase to `planning` and initiates implementation planning.  JS
mutates the found task object in place, so every active entry aliasing that
task id is updated before the splice. -/
def handleTaskCompletion (reg : CapabilityRegistry) (w : Workflow)
    (taskId : Nat) (resultRequirements resultArchitecture : String) : Workflow :=
  match w.activeTasks.find? (fun t => t.id == taskId) with
  | none => w
  | some task =>
    let task' := { task with status := "completed", result := some resultRequirements }
    let w1 := { w with
        completedTasks := w.completedTasks ++ [task']
        activeTasks := (substTask taskId task' w.activeTasks).eraseP
          (fun t => t.id == taskId) }
    if task.type == "requirements_analysis" then
      let w2 := { w1 with
          requirements := resultRequirements
          architecture := some resultArchitecture
          currentPhase := "planning" }
      initiateImplementationPlanning reg w2 resultRequirements resultArchitecture
    else w1

/-- `handleTaskProgress` (`AgentOrchestrator.js` lines 331-343): updates the
matching active task's progress and status in place. -/
def handleTaskProgress (w : Workflow) (taskId : Nat) (progress : Int)
    (status : String) : Workflow :=
  match w.activeTasks.find? (fun t => t.id == taskId) with
  | none => w
  | some _ =>
    let updated := w.activeTasks.map
      (fun t => if t.id == taskId then
        { t with progress := some progress, status := status } else t)
    { w with activeTasks := updated }

/-- `handleAgentQuestion` (`AgentOrchestrator.js` lines 348-367): relays the
question to the user channel at priority 8 when urgency is "high", else 5. -/
def handleAgentQuestion (w : Workflow) (requestingAgent question urgency : String) :
    Workflow :=
  { w with outbox := w.outbox ++
      [⟨"user_clarification_needed", "orchestrator", "user", none,
        if urgency = "high" then 8 else 5⟩] }

/-- `reassignTask` (`AgentOrchestrator.js` lines 511-530): if the task is
active and a replacement agent with the failed agent's specialization exists,
mutates the task (new assignee, status "reassigned", previous agent recorded)
and re-enters `assignTaskToAgent`.  A registry miss on the failed agent throws
in JS before any mutation; modelled as no change. -/
def reassignTask (reg : CapabilityRegistry) (w : Workflow) (taskId : Nat)
    (failedAgent : String) : Workflow :=
  match w.activeTasks.find? (fun t => t.id == taskId) with
  | none => w
  | some task =>
    match getAgentCapability reg failedAgent with
    | none => w
    | some capabilities =>
      match findReplacementAgent reg capabilities.specialization failedAgent with
      | none => w
      | some replacementAgent =>
        let task' := reassignedCopy task replacementAgent failedAgent
        assignTaskToAgent
          { w with activeTasks := substTask taskId task' w.activeTasks } task'

/-- `handleAgentError` (`AgentOrchestrator.js` lines 372-382): only severity
"critical" triggers reassignment; anything else is logged only. -/
def handleAgentError (reg : CapabilityRegistry) (w : Workflow)
    (fromAgent : String) (taskId : Nat) (severity : String) : Workflow :=
  if severity = "critical" then reassignTask reg w taskId fromAgent else w

/-- `handleCollaborationRequest` (`AgentOrchestrator.js` lines 387-405):
relays a `collaboration_invitation` to the target agent at fixed priority 7. -/
def handleCollaborationRequest (w : Workflow) (fromAgent targetAgent : String) :
    Workflow :=
  { w with outbox := w.outbox ++
      [⟨"collaboration_invitation", fromAgent, targetAgent, none, 7⟩] }

/-- One inbound agent message, by payload, as dispatched in
`handleAgentMessage` (`AgentOrchestrator.js` lines 244-293). -/
inductive AgentEvent
  | taskCompletion (fromAgent : String) (taskId : Nat)
      (resultRequirements resultArchitecture : String)
  | taskProgress (fromAgent : String) (taskId : Nat) (progress : Int) (status : String)
  | agentQuestion (fromAgent question urgency : String)
  | errorReport (fromAgent : String) (taskId : Nat) (severity : String)
  | collaborationRequest (fromAgent targetAgent : String)
deriving DecidableEq, Repr

/-- `handleAgentMessage` dispatch (`AgentOrchestrator.js` lines 244-293). -/
def handleAgentMessage (reg : CapabilityRegistry) (w : Workflow) :
    AgentEvent → Workflow
  | AgentEvent.taskCompletion _ taskId rq ra => handleTaskCompletion reg w taskId rq ra
  | AgentEvent.taskProgress _ taskId p s => handleTaskProgress w taskId p s
  | AgentEvent.agentQuestion a q u => handleAgentQuestion w a q u
  | AgentEvent.errorReport a taskId sev => handleAgentError reg w a taskId sev
  | AgentEvent.collaborationRequest a t => handleCollaborationRequest w a t

/-- The initial `requirements_analysis` task created by
`initiateRequirementsAnalysis` (`AgentOrchestrator.js` lines 154-198):
assigned to architectrix at priority 10. -/
def analysisTask : OrchTask where
  id := 0
  type := "requirements_analysis"
  assignedAgent := "architectrix"
  status := "assigned"
  priority := 10
  progress := none
  previousAgent := none
  result := none

/-- Workflow right after `startSession` + `initiateRequirementsAnalysis`. -/
def startSessionWorkflow (userRequirement : String) : Workflow where
  currentPhase := "analysis"
  activeTasks := [analysisTask]
  completedTasks := []
  activeAgents := ["architectrix"]
  requirements := userRequirement
  architecture := none
  outbox := [⟨"task_assignment", "orchestrator", "architectrix", some 0, 10⟩]
  nextTaskId := 1

/-- Position of a phase in the workflow's phase list
`['analysis', 'planning', 'implementation', 'review', 'completion']`. -/
def phaseIdx : String → Nat
  | "planning" => 1
  | "implementation" => 2
  | "review" => 3
  | "completion" => 4
  | _ => 0

/-- Fold a list of agent events through `handleAgentMessage`. -/
def run (reg : CapabilityRegistry) (w : Workflow) (events : List AgentEvent) :
    Workflow :=
  events.foldl (handleAgentMessage reg) w

/-- `getWorkflowStatus` (`AgentOrchestrator.js` lines 547-567): phase and
task-count summary. -/
structure WorkflowStatus where
  currentPhase : String
  progressTotal : Nat
  progressCompleted : Nat
  progressActive : Nat
  activeAgents : List String
deriving DecidableEq, Repr

/-- `getWorkflowStatus` projection of a workflow. -/
def getWorkflowStatus (w : Workflow) : WorkflowStatus where
  currentPhase := w.currentPhase
  progressTotal := w.activeTasks.length + w.completedTasks.length
  progressCompleted := w.completedTasks.length
  progressActive := w.activeTasks.length
  activeAgents := w.activeAgents

/-- Number of active `requirements_analysis` tasks of a workflow. -/
def raCount (w : Workflow) : Nat :=
  w.activeTasks.countP (fun t => t.type == "requirements_analysis")

/-- Invariant maintained by the orchestrator's message handlers when run over
the constructor's capability registry: active task ids are below the fresh-id
counter and pairwise distinct; at most one `requirements_analysis` task is
active, and none once the phase has advanced past `analysis`. -/
def WInv (w : Workflow) : Prop :=
  (∀ t ∈ w.activeTasks, t.id < w.nextTaskId) ∧
  w.activeTasks.Pairwise (fun a b => a.id ≠ b.id) ∧
  raCount w ≤ 1 ∧
  (w.currentPhase ≠ "analysis" → raCount w = 0)

end AgentOrchestrator

namespace A2AService

/-- Agents actually instantiated by `A2AService.initializeAgents`
(`A2AService.js` lines 24-35): only architectrix and code_conjurer exist. -/
def availableAgents : List String := ["architectrix", "code_conjurer"]

/-- `A2AService.determineRequiredAgents(workflow)` (`A2AService.js` lines
110-137): keyword matching over the lower-cased raw user requirement, always
including architectrix, filtered to the instantiated agents. -/
def determineRequiredAgents (userRequirement : String) : List String :=
  let requirement := jsToLower userRequirement
  (["architectrix"] ++
   (if jsIncludes requirement "code" || jsIncludes requirement "implement" then
      ["code_conjurer"] else []) ++
   (if jsIncludes requirement "frontend" || jsIncludes requirement "ui" then
      ["frontend_developer"] else []) ++
   (if jsIncludes requirement "backend" || jsIncludes requirement "api" then
      ["backend_developer"] else []) ++
   (if jsIncludes requirement "api" || jsIncludes requirement "endpoint" then
      ["api_architect"] else []) ++
   (if jsIncludes requirement "documentation" || jsIncludes requirement "docs" then
      ["technical_writer"] else [])).filter
    (fun agentId => availableAgents.contains agentId)

end A2AService

/-- Registry used by the reassignment witnesses: two agents sharing the
backend_development specialization (the constructor's own registry has
pairwise distinct specializations, so its replacement search always fails;
the handlers themselves are parametric in the registry state). -/
def sampleRegistry : AgentOrchestrator.CapabilityRegistry :=
  [("alpha", ⟨"backend_development", ["server_logic"]⟩),
   ("beta", ⟨"backend_development", ["server_logic"]⟩)]

/-- Active task used by the reassignment witnesses. -/
def sampleTask : AgentOrchestrator.OrchTask where
  id := 1
  type := "backend_development_implementation"
  assignedAgent := "alpha"
  status := "in_progress"
  priority := 7
  progress := none
  previousAgent := none
  result := none

/-- Workflow used by the reassignment witnesses. -/
def sampleWorkflow : AgentOrchestrator.Workflow where
  currentPhase := "implementation"
  activeTasks := [sampleTask]
  completedTasks := []
  activeAgents := ["alpha"]
  requirements := "backend"
  architecture := none
  outbox := []
  nextTaskId := 2


namespace MessageQueue

lemma failStep_nil (now : Int) (dlq : List (A2AMessage × Int)) (acks : Nat) :
    failStep now ⟨[], dlq, acks⟩ = ⟨[], dlq, acks⟩ := rfl

lemma failStep_iterate_nil (now : Int) (dlq : List (A2AMessage × Int)) (acks : Nat) :
    ∀ j, (failStep now)^[j] ⟨[], dlq, acks⟩ = ⟨[], dlq, acks⟩ := by
  intro j
  induction j with
  | zero => rfl
  | succ n ih => rw [Function.iterate_succ_apply, failStep_nil, ih]

lemma failStep_iterate_below (now : Int) (m : A2AMessage) (h0 : m.retryCount = 0) :
    ∀ i, i < m.maxRetries →
      (failStep now)^[i] ⟨[m], [], 0⟩ = ⟨[{ m with retryCount := i }], [], i⟩ := by
  intro i
  induction i with
  | zero =>
    intro _
    have hm : ({ m with retryCount := 0 } : A2AMessage) = m := by
      conv_lhs => rw [← h0]
    rw [hm]
    rfl
  | succ n ih =>
    intro hn
    rw [Function.iterate_succ_apply', ih (by omega)]
    simp [failStep, retryMessage, hn]

end MessageQueue


/-- C9: a `sendMessage` input carrying an explicit priority of 0 is published
with priority 5 in both delivery modes (the JS `message.priority || 5` treats
0 as falsy), and consequently no published message ever carries priority 0. -/
theorem priority_zero_replaced_by_default :
    (∀ (messageId : String) (now : Int) (m : MessageQueue.OutboundMessage),
      (MessageQueue.enrichedMessage messageId now { m with priority := some 0 }).priority = 5) ∧
    (∀ (messageId : String) (now : Int) (m : MessageQueue.OutboundMessage),
      (SimpleMessageQueue.enrichedMessage messageId now { m with priority := some 0 }).priority = 5) ∧
    (∀ (messageId : String) (now : Int) (m : MessageQueue.OutboundMessage),
      (MessageQueue.enrichedMessage messageId now m).priority ≠ 0) ∧
    (∀ (messageId : String) (now : Int) (m : MessageQueue.OutboundMessage),
      (SimpleMessageQueue.enrichedMessage messageId now m).priority ≠ 0) := by
  refine ⟨fun _ _ _ => rfl, fun _ _ _ => rfl, ?_, ?_⟩ <;>
  · intro messageId now m
    simp only [MessageQueue.enrichedMessage, SimpleMessageQueue.enrichedMessage, jsOrNum]
    match m.priority with
    | none => decide
    | some x =>
      by_cases hx : x = 0 <;> simp [hx]

/-- C2: an expired delivery (message age strictly greater than its ttl) never
invokes the handler; in durable mode it is acknowledged and neither republished
nor dead-lettered (never retried), in lightweight mode it is simply dropped. -/
theorem expired_message_never_handled (now : Int)
    (m : MessageQueue.A2AMessage) (lm : SimpleMessageQueue.LightMessage)
    (hm : MessageQueue.messageAgeSec now m.timestamp > (m.ttl : ℚ))
    (hlm : MessageQueue.messageAgeSec now lm.timestamp > (lm.ttl : ℚ)) :
    (∀ handlerSucceeds,
      MessageQueue.consumeDeliver now m handlerSucceeds =
        { handlerInvoked := false, acked := true, republished := none, deadLettered := none }) ∧
    SimpleMessageQueue.lightDeliver now lm = false := by
  constructor
  · intro handlerSucceeds
    simp [MessageQueue.consumeDeliver, hm]
  · simp [SimpleMessageQueue.lightDeliver, hlm]

/-- Witness for C2: a concrete message published at time 0 with ttl 300 s,
delivered at time 301 000 ms, is skipped in both modes. -/
theorem expired_message_never_handled_witness :
    (∀ handlerSucceeds,
      MessageQueue.consumeDeliver 301000
        { id := "m1", timestamp := 0, type := "task_assignment", sessionId := "s1",
          fromAgent := "orchestrator", toAgent := ["architectrix"], payload := "\x7b\x7d",
          correlationId := "m1", priority := 5, ttl := 300, status := "sent",
          retryCount := 0, maxRetries := 3 } handlerSucceeds =
        { handlerInvoked := false, acked := true, republished := none, deadLettered := none }) ∧
    SimpleMessageQueue.lightDeliver 301000
      { id := "m1", timestamp := 0, type := "task_assignment", sessionId := "s1",
        fromAgent := "orchestrator", toAgent := ["architectrix"], payload := "\x7b\x7d",
        correlationId := "m1", priority := 5, ttl := 300, status := "sent" } = false :=
  expired_message_never_handled 301000 _ _
    (by norm_num [MessageQueue.messageAgeSec])
    (by norm_num [MessageQueue.messageAgeSec])

/-- C8: when a failed message has not exhausted its retries, `retryMessage`
republishes a copy whose `retryCount` is the previous value plus one and whose
every other field (id, type, timestamp, session, sender, recipients, payload,
correlationId, priority, ttl, status, maxRetries) is identical. -/
theorem retry_preserves_identity (now : Int) (m : MessageQueue.A2AMessage)
    (h : m.retryCount + 1 < m.maxRetries) :
    MessageQueue.retryMessage now m =
      MessageQueue.RetryOutcome.republish { m with retryCount := m.retryCount + 1 } ∧
    ∀ m', MessageQueue.retryMessage now m = MessageQueue.RetryOutcome.republish m' →
      m'.retryCount = m.retryCount + 1 ∧ m'.correlationId = m.correlationId ∧
      m'.payload = m.payload ∧ m'.id = m.id ∧ m'.type = m.type ∧
      m'.timestamp = m.timestamp ∧ m'.sessionId = m.sessionId ∧
      m'.fromAgent = m.fromAgent ∧ m'.toAgent = m.toAgent ∧
      m'.priority = m.priority ∧ m'.ttl = m.ttl ∧ m'.status = m.status ∧
      m'.maxRetries = m.maxRetries := by
  have hr : MessageQueue.retryMessage now m =
      MessageQueue.RetryOutcome.republish { m with retryCount := m.retryCount + 1 } := by
    simp [MessageQueue.retryMessage, h]
  refine ⟨hr, fun m' hm' => ?_⟩
  rw [hr] at hm'
  cases hm'
  simp

/-- Witness for C8: a concrete first failure (retryCount 0, maxRetries 3) is
republished with retryCount 1 and all other fields unchanged. -/
theorem retry_preserves_identity_witness :
    MessageQueue.retryMessage 7000
      { id := "m2", timestamp := 1000, type := "task_assignment", sessionId := "s1",
        fromAgent := "orchestrator", toAgent := ["code_conjurer"], payload := "payload-k1",
        correlationId := "c2", priority := 7, ttl := 300, status := "sent",
        retryCount := 0, maxRetries := 3 } =
      MessageQueue.RetryOutcome.republish
        { id := "m2", timestamp := 1000, type := "task_assignment", sessionId := "s1",
          fromAgent := "orchestrator", toAgent := ["code_conjurer"], payload := "payload-k1",
          correlationId := "c2", priority := 7, ttl := 300, status := "sent",
          retryCount := 1, maxRetries := 3 } :=
  (retry_preserves_identity 7000 _ (by norm_num)).1

/-- C1: starting from a freshly published message (retryCount 0, positive
maxRetries), after exactly maxRetries consecutive handler failures the message
(with its incremented retry counter) sits exactly once in the session's
dead-letter record together with the failure timestamp, every delivery
including the final one has been acknowledged, and for any number of further
steps the live stream stays empty: the message is never re-published. -/
theorem dead_letter_exactly_once (now : Int) (m : MessageQueue.A2AMessage)
    (h0 : m.retryCount = 0) (hmr : 0 < m.maxRetries) (j : Nat) :
    (MessageQueue.failStep now)^[m.maxRetries + j] ⟨[m], [], 0⟩ =
      ⟨[], [({ m with retryCount := m.maxRetries }, now)], m.maxRetries⟩ := by
  obtain ⟨k, hk⟩ : ∃ k, m.maxRetries = k + 1 := ⟨m.maxRetries - 1, by omega⟩
  have hstep : (MessageQueue.failStep now)^[m.maxRetries] ⟨[m], [], 0⟩ =
      ⟨[], [({ m with retryCount := m.maxRetries }, now)], m.maxRetries⟩ := by
    conv_lhs => rw [hk]
    rw [Function.iterate_succ_apply',
      MessageQueue.failStep_iterate_below now m h0 k (by omega)]
    simp [MessageQueue.failStep, MessageQueue.retryMessage, hk]
  rw [Nat.add_comm, Function.iterate_add_apply, hstep,
    MessageQueue.failStep_iterate_nil]

/-- Witness for C1: a concrete message with the default maxRetries 3 is
dead-lettered exactly once after 3 consecutive failures, and two further steps
leave the stream empty. -/
theorem dead_letter_exactly_once_witness :
    (MessageQueue.failStep 9000)^[3 + 2] ⟨[sampleFreshMessage], [], 0⟩ =
      ⟨[], [({ sampleFreshMessage with retryCount := 3 }, 9000)], 3⟩ :=
  dead_letter_exactly_once 9000 sampleFreshMessage rfl (by decide) 2

/-- Counterexample to C4: after the outcome sequence [failure, success] the
code's errorRate is 0 (the success overwrote it), while the claimed
`errors / (completed + errors)` is 1/2; they differ. -/
theorem errorRate_claim_counterexample :
    (BaseAgent.runOutcomes [BaseAgent.TaskOutcome.failure,
        BaseAgent.TaskOutcome.success 5]).errorRate = 0 ∧
    BaseAgent.specErrorRate [BaseAgent.TaskOutcome.failure,
        BaseAgent.TaskOutcome.success 5] = 1 / 2 ∧
    (BaseAgent.runOutcomes [BaseAgent.TaskOutcome.failure,
        BaseAgent.TaskOutcome.success 5]).errorRate ≠
      BaseAgent.specErrorRate [BaseAgent.TaskOutcome.failure,
        BaseAgent.TaskOutcome.success 5] := by
  refine ⟨?_, ?_, ?_⟩ <;>
    norm_num [BaseAgent.runOutcomes, BaseAgent.applyOutcome, BaseAgent.updateMetrics,
      BaseAgent.initMetrics, BaseAgent.specErrorRate, BaseAgent.successCount,
      BaseAgent.failureCount, List.countP, List.countP.go]

/-- C4 (amended): `updateMetrics` does not accumulate errors; the resulting
errorRate reflects only the latest outcome, as a percentage: it is 0 after any
success, and `100 / (tasksCompleted + 1)` after any failure. -/
theorem errorRate_reflects_last_outcome (m : BaseAgent.Metrics) (responseTime : ℚ) :
    (BaseAgent.updateMetrics m responseTime true).errorRate = 0 ∧
    (BaseAgent.updateMetrics m responseTime false).errorRate =
      100 / ((m.tasksCompleted : ℚ) + 1) := by
  constructor
  · simp [BaseAgent.updateMetrics]
  · have h1 : ((m.tasksCompleted : ℚ) + 1) - (m.tasksCompleted : ℚ) = 1 := by ring
    have h2 : ((m.tasksCompleted : ℚ) + 1) ≠ 0 := by positivity
    simp only [BaseAgent.updateMetrics, if_neg (by simp : ¬ (false = true))]
    field_simp

/-- Counterexample to C7: for an agent whose capability list is empty the
claimed biconditional fails: `capabilities.some` is false on an empty array
even when the task type contains the agent's specialization, where the claim's
right-hand side is true. -/
theorem canHandleTask_iff_counterexample :
    ¬ (BaseAgent.canHandleTask [] "analysis" "analysis_report" = true ↔
        ((∃ cap ∈ ([] : List String),
            jsIncludes cap (BaseAgent.taskTypeCategory "analysis_report") = true) ∨
          jsIncludes "analysis_report" "analysis" = true)) := by
  decide

/-- C7 (amended): for every agent with at least one capability tag,
`canHandleTask` returns true iff some capability tag contains the task type's
category (the part before the first underscore) as a substring, or the task
type string contains the agent's specialization string; and in particular an
agent with capabilities ["backend_development"] and specialization
"backend_development" cannot handle task type "frontend_implementation". -/
theorem canHandleTask_spec :
    (∀ (capabilities : List String) (specialization taskType : String),
        capabilities ≠ [] →
        (BaseAgent.canHandleTask capabilities specialization taskType = true ↔
          ((∃ cap ∈ capabilities,
              jsIncludes cap (BaseAgent.taskTypeCategory taskType) = true) ∨
            jsIncludes taskType specialization = true))) ∧
    BaseAgent.canHandleTask ["backend_development"] "backend_development"
      "frontend_implementation" = false := by
  constructor
  · intro capabilities specialization taskType hne
    simp only [BaseAgent.canHandleTask, List.any_eq_true, Bool.or_eq_true]
    constructor
    · rintro ⟨cap, hcap, h | h⟩
      · exact Or.inl ⟨cap, hcap, h⟩
      · exact Or.inr h
    · rintro (⟨cap, hcap, h⟩ | h)
      · exact ⟨cap, hcap, Or.inl h⟩
      · obtain ⟨cap, hcap⟩ := List.exists_mem_of_ne_nil capabilities hne
        exact ⟨cap, hcap, Or.inr h⟩
  · decide

/-- Witness for C7 (amended): instantiated at a backend-development agent and
a task type it does handle. -/
theorem canHandleTask_spec_witness :
    BaseAgent.canHandleTask ["backend_development"] "backend_development"
        "backend_implementation" = true ↔
      ((∃ cap ∈ ["backend_development"],
          jsIncludes cap (BaseAgent.taskTypeCategory "backend_implementation") = true) ∨
        jsIncludes "backend_implementation" "backend_development" = true) :=
  canHandleTask_spec.1 ["backend_development"] "backend_development"
    "backend_implementation" (by decide)

namespace AgentOrchestrator

/-- Reduction of `handleAgentError` on a critical error when the task is
active, the failed agent is registered and a replacement exists. -/
lemma handleAgentError_critical_eq (reg : CapabilityRegistry) (w : Workflow)
    (failedAgent replacementAgent : String) (taskId : Nat) (task : OrchTask)
    (capA : AgentCapability)
    (hfind : w.activeTasks.find? (fun t => t.id == taskId) = some task)
    (hcap : getAgentCapability reg failedAgent = some capA)
    (hrepl : findReplacementAgent reg capA.specialization failedAgent =
      some replacementAgent) :
    handleAgentError reg w failedAgent taskId "critical" =
      assignTaskToAgent
        { w with activeTasks :=
            substTask taskId (reassignedCopy task replacementAgent failedAgent) w.activeTasks }
        (reassignedCopy task replacementAgent failedAgent) := by
  simp only [handleAgentError, if_pos rfl, ite_true, reassignTask, hfind, hcap, hrepl,
    substTask, reassignedCopy]

end AgentOrchestrator

namespace AgentOrchestrator

/-- In the constructor's registry all specializations are pairwise distinct,
so the replacement search excluding the owning agent always fails. -/
lemma no_replacement_in_initial (a : String) (cap : AgentCapability)
    (h : getAgentCapability initialCapabilities a = some cap) :
    findReplacementAgent initialCapabilities cap.specialization a = none := by
  simp only [initialCapabilities, getAgentCapability] at h
  split_ifs at h with h1 h2 h3 h4 h5 h6
  · cases h; subst h1; decide
  · cases h; subst h2; decide
  · cases h; subst h3; decide
  · cases h; subst h4; decide
  · cases h; subst h5; decide
  · cases h; subst h6; decide

/-- Over the constructor's registry, `reassignTask` never finds a replacement
and leaves the workflow unchanged. -/
lemma reassignTask_initial_noop (w : Workflow) (taskId : Nat) (failedAgent : String) :
    reassignTask initialCapabilities w taskId failedAgent = w := by
  cases hfind : w.activeTasks.find? (fun t => t.id == taskId) with
  | none => simp [reassignTask, hfind]
  | some task =>
    cases hcap : getAgentCapability initialCapabilities failedAgent with
    | none => simp [reassignTask, hfind, hcap]
    | some capA =>
      simp [reassignTask, hfind, hcap, no_replacement_in_initial failedAgent capA hcap]

/-- Implementation task types derived from the constructor's registry are
never `requirements_analysis`. -/
lemma initial_spec_impl_ne_ra (a : String) (cap : AgentCapability)
    (h : getAgentCapability initialCapabilities a = some cap) :
    cap.specialization ++ "_implementation" ≠ "requirements_analysis" := by
  simp only [initialCapabilities, getAgentCapability] at h
  split_ifs at h
  · cases h; decide
  · cases h; decide
  · cases h; decide
  · cases h; decide
  · cases h; decide
  · cases h; decide

/-- Tasks created by `createImplementationTasks` over the constructor's
registry: none is a `requirements_analysis` task, their ids lie in
`[nid, nid + agents.length)` in order, and are pairwise distinct. -/
lemma createImplementationTasks_initial_spec (agents : List String) :
    ∀ (nid : Nat) (tasks : List OrchTask),
      createImplementationTasks initialCapabilities nid agents = some tasks →
      (∀ t ∈ tasks, t.type ≠ "requirements_analysis" ∧ nid ≤ t.id ∧
        t.id < nid + agents.length) ∧
      tasks.Pairwise (fun a b => a.id ≠ b.id) := by
  induction agents with
  | nil =>
    intro nid tasks h
    simp only [createImplementationTasks] at h
    cases h
    simp
  | cons a rest ih =>
    intro nid tasks h
    simp only [createImplementationTasks] at h
    cases hcap : getAgentCapability initialCapabilities a with
    | none => rw [hcap] at h; cases h
    | some cap =>
      rw [hcap] at h
      cases hrec : createImplementationTasks initialCapabilities (nid + 1) rest with
      | none => rw [hrec] at h; cases h
      | some ts =>
        rw [hrec] at h
        simp only [Option.map_some'] at h
        cases h
        obtain ⟨hall, hpw⟩ := ih (nid + 1) ts hrec
        constructor
        · intro t ht
          rcases List.mem_cons.1 ht with rfl | ht
          · refine ⟨initial_spec_impl_ne_ra a cap hcap, le_refl _, ?_⟩
            simp only [mkImplementationTask, List.length_cons]
            omega
          · obtain ⟨h1, h2, h3⟩ := hall t ht
            refine ⟨h1, by omega, ?_⟩
            simp only [List.length_cons]
            omega
        · refine List.pairwise_cons.2 ⟨?_, hpw⟩
          intro t ht
          have h2 := (hall t ht).2.1
          simp only [mkImplementationTask]
          omega

/-- Folding `assignTaskToAgent` over a task list appends the tasks to
`activeTasks` and leaves phase, fresh-id counter and completed tasks alone. -/
lemma foldl_assign_facts (tasks : List OrchTask) :
    ∀ (w : Workflow),
      (tasks.foldl assignTaskToAgent w).activeTasks = w.activeTasks ++ tasks ∧
      (tasks.foldl assignTaskToAgent w).currentPhase = w.currentPhase ∧
      (tasks.foldl assignTaskToAgent w).nextTaskId = w.nextTaskId ∧
      (tasks.foldl assignTaskToAgent w).completedTasks = w.completedTasks := by
  induction tasks with
  | nil => intro w; simp
  | cons t ts ih =>
    intro w
    simp only [List.foldl_cons]
    obtain ⟨h1, h2, h3, h4⟩ := ih (assignTaskToAgent w t)
    refine ⟨?_, ?_, ?_, ?_⟩
    · rw [h1]
      simp [assignTaskToAgent, List.append_assoc]
    · rw [h2]
      rfl
    · rw [h3]
      rfl
    · rw [h4]
      rfl

/-- With pairwise distinct task ids, mutating the aliases of a task id and
then splicing out the first id match is the same as splicing alone. -/
lemma substTask_eraseP_of_pairwise (taskId : Nat) (task' : OrchTask)
    (hid : task'.id = taskId) :
    ∀ (l : List OrchTask), l.Pairwise (fun a b => a.id ≠ b.id) →
      (substTask taskId task' l).eraseP (fun t => t.id == taskId) =
        l.eraseP (fun t => t.id == taskId) := by
  intro l
  induction l with
  | nil => intro _; rfl
  | cons x xs ih =>
    intro hpw
    obtain ⟨hx, hxs⟩ := List.pairwise_cons.1 hpw
    by_cases hxid : (x.id == taskId) = true
    · have hxid' : x.id = taskId := by simpa using hxid
      have hmap : substTask taskId task' xs = xs := by
        rw [substTask]
        have hcongr : ∀ t ∈ xs, (if t.id == taskId then task' else t) = t := by
          intro t ht
          have hne : t.id ≠ taskId := by
            rw [← hxid']
            exact (hx t ht).symm
          simp [hne]
        rw [List.map_congr_left hcongr, List.map_id']
      have hLHS : substTask taskId task' (x :: xs) = task' :: substTask taskId task' xs := by
        simp [substTask, hxid']
      rw [hLHS, hmap]
      simp [List.eraseP_cons, hid, hxid']
    · have hxid'' : ¬ x.id = taskId := by simpa using hxid
      have hLHS : substTask taskId task' (x :: xs) = x :: substTask taskId task' xs := by
        simp [substTask, hxid'']
      rw [hLHS]
      simp [List.eraseP_cons, hxid'', ih hxs]

/-- Splicing out the first id match of the unique active
`requirements_analysis` task leaves no `requirements_analysis` task. -/
lemma raCount_eraseP_zero (taskId : Nat) (task : OrchTask)
    (hra : (task.type == "requirements_analysis") = true) :
    ∀ (l : List OrchTask), l.find? (fun t => t.id == taskId) = some task →
      l.countP (fun t => t.type == "requirements_analysis") ≤ 1 →
      (l.eraseP (fun t => t.id == taskId)).countP
        (fun t => t.type == "requirements_analysis") = 0 := by
  intro l
  induction l with
  | nil => intro hfind _; simp at hfind
  | cons x xs ih =>
    intro hfind hle
    by_cases hx : (x.id == taskId) = true
    · simp only [List.find?_cons, hx, cond_true] at hfind
      have hxtask : x = task := by simpa using hfind
      have herase : (x :: xs).eraseP (fun t => t.id == taskId) = xs := by
        simp [List.eraseP_cons, hx]
      rw [herase]
      rw [List.countP_cons] at hle
      subst hxtask
      rw [if_pos hra] at hle
      omega
    · have hx' : (x.id == taskId) = false := by simpa using hx
      simp only [List.find?_cons, hx', cond_false] at hfind
      have herase : (x :: xs).eraseP (fun t => t.id == taskId) =
          x :: xs.eraseP (fun t => t.id == taskId) := by
        simp [List.eraseP_cons, hx']
      rw [herase, List.countP_cons]
      rw [List.countP_cons] at hle
      have hxra : ¬ (x.type == "requirements_analysis") = true := by
        intro hxr
        rw [if_pos hxr] at hle
        have hmem := List.mem_of_find?_eq_some hfind
        have hpos : 0 < xs.countP (fun t => t.type == "requirements_analysis") :=
          List.countP_pos_iff.2 ⟨task, hmem, hra⟩
        omega
      rw [if_neg hxra]
      have hle' : xs.countP (fun t => t.type == "requirements_analysis") ≤ 1 := by
        omega
      rw [ih hfind hle']

end AgentOrchestrator

namespace AgentOrchestrator

/-- Reduction of `handleTaskCompletion` when the completed task is the
`requirements_analysis` task. -/
lemma handleTaskCompletion_ra_eq (w : Workflow) (taskId : Nat) (rq ra : String)
    (task : OrchTask)
    (hfind : w.activeTasks.find? (fun t => t.id == taskId) = some task)
    (hty : (task.type == "requirements_analysis") = true) :
    handleTaskCompletion initialCapabilities w taskId rq ra =
      initiateImplementationPlanning initialCapabilities
        { w with
            completedTasks :=
              w.completedTasks ++ [{ task with status := "completed", result := some rq }]
            activeTasks :=
              (substTask taskId { task with status := "completed", result := some rq }
                  w.activeTasks).eraseP (fun t => t.id == taskId)
            requirements := rq
            architecture := some ra
            currentPhase := "planning" }
        rq ra := by
  simp only [handleTaskCompletion, hfind, hty, ite_true]

/-- Reduction of `handleTaskCompletion` when the completed task is not the
`requirements_analysis` task. -/
lemma handleTaskCompletion_other_eq (w : Workflow) (taskId : Nat) (rq ra : String)
    (task : OrchTask)
    (hfind : w.activeTasks.find? (fun t => t.id == taskId) = some task)
    (hty : ¬ (task.type == "requirements_analysis") = true) :
    handleTaskCompletion initialCapabilities w taskId rq ra =
      { w with
          completedTasks :=
            w.completedTasks ++ [{ task with status := "completed", result := some rq }]
          activeTasks :=
            (substTask taskId { task with status := "completed", result := some rq }
                w.activeTasks).eraseP (fun t => t.id == taskId) } := by
  simp only [handleTaskCompletion, hfind, if_neg hty]

/-- Reduction of `initiateImplementationPlanning` when task creation fails
(caught exception): the workflow is returned unchanged. -/
lemma initiateImplementationPlanning_none_eq (w : Workflow) (rq ra : String)
    (hcreate : createImplementationTasks initialCapabilities w.nextTaskId
      (determineRequiredAgents rq ra) = none) :
    initiateImplementationPlanning initialCapabilities w rq ra = w := by
  simp only [initiateImplementationPlanning, hcreate]

/-- Field-level effect of `initiateImplementationPlanning` when the
implementation tasks are created: they are appended to the active tasks, the
fresh-id counter advances by the number of needed agents, and the phase
becomes `implementation`. -/
lemma initiateImplementationPlanning_some_projs (w : Workflow) (rq ra : String)
    (tasks : List OrchTask)
    (hcreate : createImplementationTasks initialCapabilities w.nextTaskId
      (determineRequiredAgents rq ra) = some tasks) :
    (initiateImplementationPlanning initialCapabilities w rq ra).activeTasks =
        w.activeTasks ++ tasks ∧
    (initiateImplementationPlanning initialCapabilities w rq ra).nextTaskId =
        w.nextTaskId + (determineRequiredAgents rq ra).length ∧
    (initiateImplementationPlanning initialCapabilities w rq ra).currentPhase =
        "implementation" := by
  simp only [initiateImplementationPlanning, hcreate]
  obtain ⟨h1, h2, h3, h4⟩ := foldl_assign_facts tasks
    { w with nextTaskId := w.nextTaskId + (determineRequiredAgents rq ra).length }
  refine ⟨?_, ?_, ?_⟩
  · rw [h1]
  · rw [h3]
  · trivial

/-- `initiateImplementationPlanning` preserves the invariant from any workflow
with in-bound, pairwise-distinct active ids and no active
`requirements_analysis` task; the phase either stays or becomes
`implementation`. -/
lemma initiate_winv (w : Workflow) (rq ra : String)
    (hb : ∀ t ∈ w.activeTasks, t.id < w.nextTaskId)
    (hp : w.activeTasks.Pairwise (fun a b => a.id ≠ b.id))
    (hz : w.activeTasks.countP (fun t => t.type == "requirements_analysis") = 0) :
    WInv (initiateImplementationPlanning initialCapabilities w rq ra) ∧
    ((initiateImplementationPlanning initialCapabilities w rq ra).currentPhase =
        w.currentPhase ∨
      (initiateImplementationPlanning initialCapabilities w rq ra).currentPhase =
        "implementation") := by
  cases hcreate : createImplementationTasks initialCapabilities w.nextTaskId
      (determineRequiredAgents rq ra) with
  | none =>
    rw [initiateImplementationPlanning_none_eq w rq ra hcreate]
    exact ⟨⟨hb, hp, by simp [raCount, hz], fun _ => by rw [raCount, hz]⟩, Or.inl rfl⟩
  | some tasks =>
    obtain ⟨hact, hnid, hphase⟩ :=
      initiateImplementationPlanning_some_projs w rq ra tasks hcreate
    obtain ⟨hall, hpwts⟩ := createImplementationTasks_initial_spec
      (determineRequiredAgents rq ra) w.nextTaskId tasks hcreate
    refine ⟨⟨?_, ?_, ?_, ?_⟩, Or.inr hphase⟩
    · intro t ht
      rw [hact] at ht
      rw [hnid]
      rcases List.mem_append.1 ht with h | h
      · have := hb t h
        omega
      · exact (hall t h).2.2
    · rw [hact]
      refine List.pairwise_append.2 ⟨hp, hpwts, ?_⟩
      intro a ha b hb'
      have h1 := hb a ha
      have h2 := (hall b hb').2.1
      omega
    · rw [raCount, hact, List.countP_append, hz]
      have hts : tasks.countP (fun t => t.type == "requirements_analysis") = 0 := by
        rw [List.countP_eq_zero]
        intro t ht
        have := (hall t ht).1
        simpa using this
      rw [hts]
      omega
    · intro _
      rw [raCount, hact, List.countP_append, hz]
      have hts : tasks.countP (fun t => t.type == "requirements_analysis") = 0 := by
        rw [List.countP_eq_zero]
        intro t ht
        have := (hall t ht).1
        simpa using this
      rw [hts]

/-- `handleTaskCompletion` preserves the invariant and never moves the phase
backwards. -/
lemma completion_preserves (w : Workflow) (taskId : Nat) (rq ra : String) (hw : WInv w) :
    WInv (handleTaskCompletion initialCapabilities w taskId rq ra) ∧
    phaseIdx w.currentPhase ≤
      phaseIdx (handleTaskCompletion initialCapabilities w taskId rq ra).currentPhase := by
  obtain ⟨hbound, hpw, hcnt, hph⟩ := hw
  cases hfind : w.activeTasks.find? (fun t => t.id == taskId) with
  | none =>
    have hkeep : handleTaskCompletion initialCapabilities w taskId rq ra = w := by
      simp only [handleTaskCompletion, hfind]
    rw [hkeep]
    exact ⟨⟨hbound, hpw, hcnt, hph⟩, le_refl _⟩
  | some task =>
    have htid : task.id = taskId := by simpa using List.find?_some hfind
    have hmem : task ∈ w.activeTasks := List.mem_of_find?_eq_some hfind
    have hsplice := substTask_eraseP_of_pairwise taskId
      { task with status := "completed", result := some rq } (by simpa using htid)
      w.activeTasks hpw
    have herase_sub : List.Sublist (w.activeTasks.eraseP (fun t => t.id == taskId))
        w.activeTasks := List.eraseP_sublist _
    have hbound1 : ∀ t ∈ w.activeTasks.eraseP (fun t => t.id == taskId),
        t.id < w.nextTaskId := fun t ht => hbound t (herase_sub.subset ht)
    have hpw1 : (w.activeTasks.eraseP (fun t => t.id == taskId)).Pairwise
        (fun a b => a.id ≠ b.id) := hpw.sublist herase_sub
    have hcnt1 : (w.activeTasks.eraseP (fun t => t.id == taskId)).countP
        (fun t => t.type == "requirements_analysis") ≤ 1 :=
      le_trans (herase_sub.countP_le _) hcnt
    by_cases hty : (task.type == "requirements_analysis") = true
    · have hana : w.currentPhase = "analysis" := by
        by_contra hne
        have h0 := hph hne
        have hpos : 0 < raCount w := by
          rw [raCount]
          exact List.countP_pos_iff.2 ⟨task, hmem, hty⟩
        omega
      have hzero : (w.activeTasks.eraseP (fun t => t.id == taskId)).countP
          (fun t => t.type == "requirements_analysis") = 0 :=
        raCount_eraseP_zero taskId task hty w.activeTasks hfind hcnt
      rw [handleTaskCompletion_ra_eq w taskId rq ra task hfind hty]
      obtain ⟨hwinv, hor⟩ := initiate_winv
        { w with
            completedTasks :=
              w.completedTasks ++ [{ task with status := "completed", result := some rq }]
            activeTasks :=
              (substTask taskId { task with status := "completed", result := some rq }
                  w.activeTasks).eraseP (fun t => t.id == taskId)
            requirements := rq
            architecture := some ra
            currentPhase := "planning" }
        rq ra
        (by
          intro t ht
          rw [hsplice] at ht
          exact hbound1 t ht)
        (by
          rw [hsplice]
          exact hpw1)
        (by
          rw [hsplice]
          exact hzero)
      refine ⟨hwinv, ?_⟩
      rw [hana]
      rcases hor with h | h
      · rw [h]
        show phaseIdx "analysis" ≤ phaseIdx "planning"
        decide
      · rw [h]
        decide
    · rw [handleTaskCompletion_other_eq w taskId rq ra task hfind hty]
      refine ⟨⟨?_, ?_, ?_, ?_⟩, le_refl _⟩
      · intro t ht
        rw [hsplice] at ht
        exact hbound1 t ht
      · rw [hsplice]
        exact hpw1
      · rw [raCount, hsplice]
        exact hcnt1
      · intro hne
        have h0 := hph hne
        rw [raCount] at h0
        have hle := herase_sub.countP_le (fun t => t.type == "requirements_analysis")
        show ((substTask taskId { task with status := "completed", result := some rq }
            w.activeTasks).eraseP (fun t => t.id == taskId)).countP
            (fun t => t.type == "requirements_analysis") = 0
        rw [hsplice]
        omega

end AgentOrchestrator

namespace AgentOrchestrator

/-- `handleTaskProgress` preserves the invariant and the phase. -/
lemma progress_preserves (w : Workflow) (taskId : Nat) (progress : Int)
    (status : String) (hw : WInv w) :
    WInv (handleTaskProgress w taskId progress status) ∧
    (handleTaskProgress w taskId progress status).currentPhase = w.currentPhase := by
  cases hfind : w.activeTasks.find? (fun t => t.id == taskId) with
  | none =>
    have hkeep : handleTaskProgress w taskId progress status = w := by
      simp only [handleTaskProgress, hfind]
    rw [hkeep]
    exact ⟨hw, rfl⟩
  | some t0 =>
    obtain ⟨hbound, hpw, hcnt, hph⟩ := hw
    have hred : handleTaskProgress w taskId progress status =
        { w with
            activeTasks :=
              w.activeTasks.map (fun t =>
                if t.id == taskId then
                  { t with progress := some progress, status := status }
                else t) } := by
      simp only [handleTaskProgress, hfind]
    have hfid : ∀ t : OrchTask,
        ((if t.id == taskId then
          { t with progress := some progress, status := status } else t) : OrchTask).id =
          t.id := by
      intro t
      split <;> rfl
    have hftype : ∀ t : OrchTask,
        ((if t.id == taskId then
          { t with progress := some progress, status := status } else t) : OrchTask).type =
          t.type := by
      intro t
      split <;> rfl
    have hcountmap : (w.activeTasks.map
        (fun t => if t.id == taskId then
          { t with progress := some progress, status := status } else t)).countP
        (fun t => t.type == "requirements_analysis") =
        w.activeTasks.countP (fun t => t.type == "requirements_analysis") := by
      rw [List.countP_map]
      apply List.countP_congr
      intro t _
      simp only [Function.comp_apply]
      rw [hftype t]
    rw [hred]
    refine ⟨⟨?_, ?_, ?_, ?_⟩, rfl⟩
    · intro t ht
      obtain ⟨t1, ht1, heq⟩ := List.mem_map.1 ht
      rw [← heq, hfid t1]
      exact hbound t1 ht1
    · refine List.Pairwise.map _ ?_ hpw
      intro a b hab
      rw [hfid a, hfid b]
      exact hab
    · rw [raCount, hcountmap]
      exact hcnt
    · intro hne
      have h0 := hph hne
      rw [raCount] at h0
      rw [raCount, hcountmap]
      exact h0

/-- Over the constructor's registry, `handleAgentError` never changes the
workflow (the replacement search always fails, and non-critical severities are
logged only). -/
lemma error_noop (w : Workflow) (fromAgent : String) (taskId : Nat)
    (severity : String) :
    handleAgentError initialCapabilities w fromAgent taskId severity = w := by
  unfold handleAgentError
  split
  · exact reassignTask_initial_noop w taskId fromAgent
  · rfl

/-- One dispatched agent message preserves the invariant and never moves the
phase backwards (constructor registry). -/
lemma winv_handle (w : Workflow) (e : AgentEvent) (hw : WInv w) :
    WInv (handleAgentMessage initialCapabilities w e) ∧
    phaseIdx w.currentPhase ≤
      phaseIdx (handleAgentMessage initialCapabilities w e).currentPhase := by
  cases e with
  | taskCompletion a taskId rq ra => exact completion_preserves w taskId rq ra hw
  | taskProgress a taskId p s =>
    obtain ⟨h1, h2⟩ := progress_preserves w taskId p s hw
    exact ⟨h1, le_of_eq (congrArg phaseIdx h2.symm)⟩
  | agentQuestion a q u => exact ⟨hw, le_refl _⟩
  | errorReport a taskId sev =>
    have he : handleAgentMessage initialCapabilities w
        (AgentEvent.errorReport a taskId sev) = w := error_noop w a taskId sev
    rw [he]
    exact ⟨hw, le_refl _⟩
  | collaborationRequest a t => exact ⟨hw, le_refl _⟩

/-- The invariant holds along any run of agent events. -/
lemma winv_run (events : List AgentEvent) :
    ∀ (w : Workflow), WInv w → WInv (run initialCapabilities w events) := by
  induction events with
  | nil => intro w hw; exact hw
  | cons e es ih =>
    intro w hw
    exact ih _ (winv_handle w e hw).1

/-- The invariant holds right after `startSession`. -/
lemma winv_init (userRequirement : String) : WInv (startSessionWorkflow userRequirement) := by
  refine ⟨?_, ?_, ?_, ?_⟩
  · intro t ht
    have h : t = analysisTask := by
      simpa [startSessionWorkflow] using ht
    subst h
    exact Nat.zero_lt_one
  · simp [startSessionWorkflow]
  · exact le_refl 1
  · intro hne
    exact absurd rfl hne

end AgentOrchestrator

/-- Counterexample to C5: on the requirement "backend" the orchestrator's rule
yields {backend_developer, code_conjurer} while the session-start rule yields
{architectrix} (backend_developer is filtered out because `A2AService` only
instantiates architectrix and code_conjurer); the derived sets differ. -/
theorem determineRequiredAgents_differ_on_backend :
    (AgentOrchestrator.determineRequiredAgents "backend" "").toFinset ≠
      (A2AService.determineRequiredAgents "backend").toFinset := by
  intro heq
  have h1 : "code_conjurer" ∈ AgentOrchestrator.determineRequiredAgents "backend" "" := by
    decide
  have h2 : "code_conjurer" ∉ A2AService.determineRequiredAgents "backend" := by
    decide
  exact h2 (List.mem_toFinset.1 (heq ▸ List.mem_toFinset.2 h1))

/-- C5 (amended): the two keyword-matching rules are not extensionally equal;
they disagree on every input, because the session-start rule
(`A2AService.determineRequiredAgents`) always includes architectrix while the
orchestrator's rule (`AgentOrchestrator.determineRequiredAgents`) never does. -/
theorem determineRequiredAgents_rules_never_agree (requirement architecture : String) :
    "architectrix" ∈ A2AService.determineRequiredAgents requirement ∧
    "architectrix" ∉ AgentOrchestrator.determineRequiredAgents requirement architecture ∧
    (AgentOrchestrator.determineRequiredAgents requirement architecture).toFinset ≠
      (A2AService.determineRequiredAgents requirement).toFinset := by
  have hmem : "architectrix" ∈ A2AService.determineRequiredAgents requirement := by
    simp only [A2AService.determineRequiredAgents]
    refine List.mem_filter.2 ⟨?_, by decide⟩
    simp
  have hnot : "architectrix" ∉
      AgentOrchestrator.determineRequiredAgents requirement architecture := by
    intro h
    simp only [AgentOrchestrator.determineRequiredAgents, List.mem_append] at h
    rcases h with ((((h | h) | h) | h) | h)
    · revert h; split <;> decide
    · revert h; split <;> decide
    · revert h; split <;> decide
    · revert h; split <;> decide
    · revert h; decide
  refine ⟨hmem, hnot, fun heq => hnot ?_⟩
  have hfin : "architectrix" ∈ (A2AService.determineRequiredAgents requirement).toFinset :=
    List.mem_toFinset.2 hmem
  rw [← heq] at hfin
  exact List.mem_toFinset.1 hfin

/-- C6: when agent A fails an active task with severity "critical" and B is
the first agent in the capability registry sharing A's specialization other
than A, the handler reassigns the task to B (status "reassigned", previous
agent recorded) and publishes exactly one new `task_assignment` targeting B at
the task's priority; any other severity leaves the workflow untouched. -/
theorem critical_error_triggers_reassignment
    (reg : AgentOrchestrator.CapabilityRegistry) (w : AgentOrchestrator.Workflow)
    (failedAgent replacementAgent : String) (taskId : Nat)
    (task : AgentOrchestrator.OrchTask) (capA : AgentOrchestrator.AgentCapability)
    (hfind : w.activeTasks.find? (fun t => t.id == taskId) = some task)
    (hcap : AgentOrchestrator.getAgentCapability reg failedAgent = some capA)
    (hrepl : AgentOrchestrator.findReplacementAgent reg capA.specialization failedAgent =
      some replacementAgent) :
    (∀ t ∈ (AgentOrchestrator.handleAgentError reg w failedAgent taskId
        "critical").activeTasks, t.id = taskId →
        t.assignedAgent = replacementAgent ∧ t.status = "reassigned" ∧
        t.previousAgent = some failedAgent) ∧
    (AgentOrchestrator.handleAgentError reg w failedAgent taskId "critical").outbox =
      w.outbox ++ [⟨"task_assignment", "orchestrator", replacementAgent, some taskId,
        task.priority⟩] ∧
    (∀ severity, severity ≠ "critical" →
      AgentOrchestrator.handleAgentError reg w failedAgent taskId severity = w) := by
  have htid : task.id = taskId := by
    have h := List.find?_some hfind
    simpa using h
  have hred := AgentOrchestrator.handleAgentError_critical_eq reg w failedAgent
    replacementAgent taskId task capA hfind hcap hrepl
  refine ⟨?_, ?_, ?_⟩
  · intro t ht htid'
    rw [hred] at ht
    simp only [AgentOrchestrator.assignTaskToAgent, AgentOrchestrator.substTask,
      List.mem_append, List.mem_map, List.mem_singleton] at ht
    rcases ht with ⟨orig, _, horig⟩ | ht
    · by_cases ho : (orig.id == taskId) = true
      · rw [if_pos ho] at horig
        subst horig
        exact ⟨rfl, rfl, rfl⟩
      · rw [if_neg ho] at horig
        subst horig
        exact absurd (by simpa using htid') ho
    · subst ht
      exact ⟨rfl, rfl, rfl⟩
  · rw [hred]
    simp [AgentOrchestrator.assignTaskToAgent, AgentOrchestrator.reassignedCopy, htid]
  · intro severity hsev
    simp [AgentOrchestrator.handleAgentError, hsev]

/-- Witness for C6 at a concrete registry, workflow and failure. -/
theorem critical_error_triggers_reassignment_witness :
    (∀ t ∈ (AgentOrchestrator.handleAgentError sampleRegistry sampleWorkflow "alpha" 1
        "critical").activeTasks, t.id = 1 →
        t.assignedAgent = "beta" ∧ t.status = "reassigned" ∧
        t.previousAgent = some "alpha") ∧
    (AgentOrchestrator.handleAgentError sampleRegistry sampleWorkflow "alpha" 1
        "critical").outbox =
      sampleWorkflow.outbox ++ [⟨"task_assignment", "orchestrator", "beta", some 1,
        sampleTask.priority⟩] ∧
    (∀ severity, severity ≠ "critical" →
      AgentOrchestrator.handleAgentError sampleRegistry sampleWorkflow "alpha" 1
        severity = sampleWorkflow) :=
  critical_error_triggers_reassignment sampleRegistry sampleWorkflow "alpha" "beta" 1
    sampleTask ⟨"backend_development", ["server_logic"]⟩ (by decide) (by decide) (by decide)

/-- C10: a critical-severity reassignment of an active task (present once)
leaves the mutated entry in place and appends it again, so the task appears
twice among the active tasks, and `getWorkflowStatus` reports one more active
task and one more total task although no new task was created. -/
theorem reassignment_duplicates_active_task
    (reg : AgentOrchestrator.CapabilityRegistry) (w : AgentOrchestrator.Workflow)
    (failedAgent : String) (taskId : Nat) (capA : AgentOrchestrator.AgentCapability)
    (hcount : w.activeTasks.countP (fun t => t.id == taskId) = 1)
    (hcap : AgentOrchestrator.getAgentCapability reg failedAgent = some capA)
    (hrepl : (AgentOrchestrator.findReplacementAgent reg capA.specialization
      failedAgent).isSome = true) :
    ((AgentOrchestrator.handleAgentError reg w failedAgent taskId
        "critical").activeTasks.countP (fun t => t.id == taskId) = 2) ∧
    (AgentOrchestrator.handleAgentError reg w failedAgent taskId
        "critical").activeTasks.length = w.activeTasks.length + 1 ∧
    (AgentOrchestrator.getWorkflowStatus (AgentOrchestrator.handleAgentError reg w
        failedAgent taskId "critical")).progressActive =
      (AgentOrchestrator.getWorkflowStatus w).progressActive + 1 ∧
    (AgentOrchestrator.getWorkflowStatus (AgentOrchestrator.handleAgentError reg w
        failedAgent taskId "critical")).progressTotal =
      (AgentOrchestrator.getWorkflowStatus w).progressTotal + 1 := by
  obtain ⟨task, hfind⟩ : ∃ task,
      w.activeTasks.find? (fun t => t.id == taskId) = some task := by
    have hpos : 0 < w.activeTasks.countP (fun t => t.id == taskId) := by omega
    obtain ⟨x, hx, hpx⟩ := List.countP_pos_iff.1 hpos
    exact Option.isSome_iff_exists.1 (List.find?_isSome.2 ⟨x, hx, hpx⟩)
  obtain ⟨replacementAgent, hrepl'⟩ := Option.isSome_iff_exists.1 hrepl
  have htid : task.id = taskId := by
    have h := List.find?_some hfind
    simpa using h
  have hred := AgentOrchestrator.handleAgentError_critical_eq reg w failedAgent
    replacementAgent taskId task capA hfind hcap hrepl'
  have hcmap : (AgentOrchestrator.substTask taskId
      (AgentOrchestrator.reassignedCopy task replacementAgent failedAgent)
      w.activeTasks).countP (fun t => t.id == taskId) = 1 := by
    rw [AgentOrchestrator.substTask, List.countP_map, ← hcount]
    apply List.countP_congr
    intro t _
    by_cases h : (t.id == taskId) = true
    · simp only [Function.comp_apply, if_pos h, h]
      simp [AgentOrchestrator.reassignedCopy, htid]
    · simp only [Function.comp_apply, if_neg h]
  have hone : List.countP (fun t => t.id == taskId)
      [AgentOrchestrator.reassignedCopy task replacementAgent failedAgent] = 1 := by
    simp [AgentOrchestrator.reassignedCopy, htid]
  have hlen : (AgentOrchestrator.substTask taskId
      (AgentOrchestrator.reassignedCopy task replacementAgent failedAgent)
      w.activeTasks).length = w.activeTasks.length := by
    simp [AgentOrchestrator.substTask]
  refine ⟨?_, ?_, ?_, ?_⟩
  · rw [hred]
    simp only [AgentOrchestrator.assignTaskToAgent, List.countP_append]
    rw [hcmap, hone]
  · rw [hred]
    simp only [AgentOrchestrator.assignTaskToAgent, List.length_append]
    rw [hlen]
    rfl
  · rw [hred]
    simp only [AgentOrchestrator.assignTaskToAgent, AgentOrchestrator.getWorkflowStatus,
      List.length_append]
    rw [hlen]
    rfl
  · rw [hred]
    simp only [AgentOrchestrator.assignTaskToAgent, AgentOrchestrator.getWorkflowStatus,
      List.length_append]
    rw [hlen]
    simp only [List.length_singleton]
    omega

/-- Witness for C10 at a concrete registry and workflow: the duplicated task
makes the active count go from 1 to 2. -/
theorem reassignment_duplicates_active_task_witness :
    ((AgentOrchestrator.handleAgentError sampleRegistry sampleWorkflow "alpha" 1
        "critical").activeTasks.countP (fun t => t.id == 1) = 2) ∧
    (AgentOrchestrator.handleAgentError sampleRegistry sampleWorkflow "alpha" 1
        "critical").activeTasks.length = sampleWorkflow.activeTasks.length + 1 ∧
    (AgentOrchestrator.getWorkflowStatus (AgentOrchestrator.handleAgentError
        sampleRegistry sampleWorkflow "alpha" 1 "critical")).progressActive =
      (AgentOrchestrator.getWorkflowStatus sampleWorkflow).progressActive + 1 ∧
    (AgentOrchestrator.getWorkflowStatus (AgentOrchestrator.handleAgentError
        sampleRegistry sampleWorkflow "alpha" 1 "critical")).progressTotal =
      (AgentOrchestrator.getWorkflowStatus sampleWorkflow).progressTotal + 1 :=
  reassignment_duplicates_active_task sampleRegistry sampleWorkflow "alpha" 1
    ⟨"backend_development", ["server_logic"]⟩ (by decide) (by decide) (by decide)

/-- C3: for every session (any user requirement) and every sequence of handled
agent messages, no handler ever sets the workflow's `currentPhase` to an
earlier phase than its current value: the phase index along
`[analysis, planning, implementation, review, completion]` never decreases, so
the observed phase sequence is a subsequence of that list. -/
theorem workflow_phase_never_regresses (userRequirement : String)
    (events : List AgentOrchestrator.AgentEvent) (e : AgentOrchestrator.AgentEvent) :
    AgentOrchestrator.phaseIdx
        (AgentOrchestrator.run AgentOrchestrator.initialCapabilities
          (AgentOrchestrator.startSessionWorkflow userRequirement) events).currentPhase ≤
      AgentOrchestrator.phaseIdx
        (AgentOrchestrator.handleAgentMessage AgentOrchestrator.initialCapabilities
          (AgentOrchestrator.run AgentOrchestrator.initialCapabilities
            (AgentOrchestrator.startSessionWorkflow userRequirement) events)
          e).currentPhase :=
  (AgentOrchestrator.winv_handle _ e
    (AgentOrchestrator.winv_run events _
      (AgentOrchestrator.winv_init userRequirement))).2
